import Mathlib

/-! Verification of the article-extraction pipeline (`src/app.py`).

Shallow embedding of the heuristic text-mining core of the pubmed-scraper
repository.  Python strings are modelled as `List Char` (the corpora in
question are plain text); Python regular-expression searches are modelled
by explicit leftmost-scan functions that mirror the concrete patterns
appearing in the source, including greedy/lazy backtracking where it is
observable.  All definitions are executable and structurally recursive so
that concrete corpora can be evaluated by `decide`/`rfl`.
-/

namespace PubmedScraper

/-! ## Character classes (Python `re` on ASCII text) -/

/-- Python `\d` on ASCII text. -/
def isDigitC (c : Char) : Bool := '0' ≤ c && c ≤ '9'

/-- Python `\w` (word character) on ASCII text: letters, digits, underscore. -/
def isWordC (c : Char) : Bool := c.isAlpha || isDigitC c || c = '_'

/-- Python `\s` on ASCII text. -/
def isSpaceC (c : Char) : Bool :=
  c = ' ' || c = '\t' || c = '\n' || c = '\r' || c = '\x0b' || c = '\x0c'

/-- ASCII upper-case letter. -/
def isUpperC (c : Char) : Bool := 'A' ≤ c && c ≤ 'Z'

/-- ASCII lower-case letter. -/
def isLowerC (c : Char) : Bool := 'a' ≤ c && c ≤ 'z'

/-- The class `[A-Z0-9]` used by gene pattern 3. -/
def isUpperDigitC (c : Char) : Bool := isUpperC c || isDigitC c

/-- The class `[A-Za-z0-9]` (alphanumeric) used in gap classes. -/
def isAlnumC (c : Char) : Bool := c.isAlpha || isDigitC c

/-- The gene-token class `[A-Za-z0-9\-\_]` of patterns 1 and 2. -/
def isGeneTokC (c : Char) : Bool := isAlnumC c || c = '-' || c = '_'

/-- ASCII lower-casing of one character, as Python `str.lower` acts on ASCII. -/
def lowerC (c : Char) : Char :=
  if isUpperC c then Char.ofNat (c.toNat + 32) else c

/-- Lower-case a character list. -/
def lowerL (l : List Char) : List Char := l.map lowerC

/-! ## Basic list-of-char utilities -/

/-- Does `pat` occur at the very start of `l`? (case-sensitive) -/
def startsWithL : List Char → List Char → Bool
  | [], _ => true
  | _ :: _, [] => false
  | p :: ps, c :: cs => p = c && startsWithL ps cs

/-- Does `pat` occur at the very start of `l`, comparing case-insensitively? -/
def startsWithCI : List Char → List Char → Bool
  | [], _ => true
  | _ :: _, [] => false
  | p :: ps, c :: cs => lowerC p = lowerC c && startsWithCI ps cs

/-- Python `pat in text` (contiguous substring test). -/
def hasSub (pat : List Char) : List Char → Bool
  | [] => startsWithL pat []
  | c :: cs => startsWithL pat (c :: cs) || hasSub pat cs

/-- Length of the maximal run of characters satisfying `p` at the head. -/
def runLen (p : Char → Bool) : List Char → Nat
  | [] => 0
  | c :: cs => if p c then runLen p cs + 1 else 0

/-- Python `str.strip()` restricted to ASCII whitespace. -/
def stripL (l : List Char) : List Char :=
  ((l.dropWhile isSpaceC).reverse.dropWhile isSpaceC).reverse

/-- Leftmost-match scan: `re.search` semantics. `f` receives each suffix of
the text (including the empty one) together with the character immediately
preceding it (`none` at the start of the text, as needed by `\b`); the first
suffix on which `f` succeeds wins. -/
def scanFirst (f : Option Char → List Char → Option α) : Option Char → List Char → Option α
  | prev, [] => f prev []
  | prev, c :: cs =>
    match f prev (c :: cs) with
    | some v => some v
    | none => scanFirst f (some c) cs

/-- `re.search` over a whole text. -/
def reSearch (f : Option Char → List Char → Option α) (text : List Char) : Option α :=
  scanFirst f none text

/-- Is there a word boundary between `prev` and a word character? -/
def boundaryBefore (prev : Option Char) : Bool :=
  match prev with
  | none => true
  | some c => !(isWordC c)

/-- Is there a word boundary after a word character, given the rest? -/
def boundaryAfter (rest : List Char) : Bool :=
  match rest with
  | [] => true
  | c :: _ => !(isWordC c)

/-! ## Configuration tables (module-level constants of `app.py`) -/

def GENOTYPE_KEYWORDS : List String :=
  ["MassARRAY", "massarray", "MassARRAY genotyping", "whole exome sequencing",
   "WES", "PCR", "TaqMan", "microarray", "sequencing", "Sanger", "genotyping"]

def STUDY_DESIGN_KEYWORDS : List (String × List String) :=
  [("Case control", ["case-control", "case control", "case-control study"]),
   ("Cohort", ["cohort", "prospective cohort", "retrospective cohort"]),
   ("Cross-sectional", ["cross-sectional"]),
   ("RCT", ["randomized", "randomised", "randomized controlled trial"]),
   ("Meta-analysis", ["meta-analysis", "meta analysis", "systematic review"])]

def REGION_KEYWORDS : List String :=
  ["Pakistan", "Pashtun", "KPK", "Khyber", "Sindh", "Punjab", "Balochistan",
   "India", "China", "USA", "United States"]

/-! ## `find_study_design` -/

/-- Inner double loop of `find_study_design`: first mapping entry (in
declaration order) one of whose trigger phrases occurs in the lowercased
corpus wins. -/
def firstDesignLabel (t : List Char) : List (String × List String) → String
  | [] => ""
  | (label, keys) :: rest =>
    if keys.any (fun k => hasSub k.data t) then label else firstDesignLabel t rest

/-- `find_study_design(text)` from `app.py`. -/
def find_study_design (text : String) : String :=
  if text = "" then ""
  else firstDesignLabel (lowerL text.data) STUDY_DESIGN_KEYWORDS

/-! ## `find_region` -/

/-- One attempt of `re.search(r'\b' + word + r'\b', text, re.I)` at a given
suffix: whole-word, case-insensitive occurrence starting here. -/
def wordMatchAt (w : List Char) (prev : Option Char) (l : List Char) : Option Unit :=
  if boundaryBefore prev && startsWithCI w l && boundaryAfter (l.drop w.length)
  then some () else none

/-- Whole-word case-insensitive occurrence anywhere in the text. -/
def wordOccurs (w : String) (text : String) : Bool :=
  (reSearch (wordMatchAt w.data) text.data).isSome

/-- `find_region(text)` from `app.py`. -/
def find_region (text : String) : String :=
  if text = "" then ""
  else
    match REGION_KEYWORDS.find? (fun r => wordOccurs r text) with
    | some r => r
    | none => ""

/-! ## `find_genotyping_method` -/

/-- `find_genotyping_method(text)` from `app.py`: first keyword in the fixed
list whose lower-casing occurs in the lowercased corpus. -/
def find_genotyping_method (text : String) : String :=
  if text = "" then ""
  else
    match GENOTYPE_KEYWORDS.find? (fun k => hasSub (lowerL k.data) (lowerL text.data)) with
    | some k => k
    | none => ""

/-! ## `find_sample_size` -/

/-- Numeric value of a list of ASCII digits. -/
def digitsToNat (l : List Char) : Nat :=
  l.foldl (fun a c => a * 10 + (c.toNat - 48)) 0

/-- Python `text.replace(',', '')`. -/
def removeCommas (l : List Char) : List Char := l.filter (fun c => c ≠ ',')

/-- Attempt of `\b[nN]\s*=\s*(\d{2,6})` at one position. -/
def ssPat1At (prev : Option Char) (l : List Char) : Option Nat :=
  if boundaryBefore prev then
    match l with
    | c :: rest =>
      if c = 'n' || c = 'N' then
        let rest := rest.drop (runLen isSpaceC rest)
        match rest with
        | '=' :: rest =>
          let rest := rest.drop (runLen isSpaceC rest)
          let r := runLen isDigitC rest
          if 2 ≤ r then some (digitsToNat (rest.take (min r 6))) else none
        | _ => none
      else none
    | [] => none
  else none

/-- Attempt of `sample size (?:of )?(\d{2,6})` at one position (case-sensitive,
`of ` tried greedily first). -/
def ssPat2At (_prev : Option Char) (l : List Char) : Option Nat :=
  if startsWithL "sample size ".data l then
    let rest := l.drop 12
    let tryDigits : List Char → Option Nat := fun r =>
      let n := runLen isDigitC r
      if 2 ≤ n then some (digitsToNat (r.take (min n 6))) else none
    match (if startsWithL "of ".data rest then tryDigits (rest.drop 3) else none) with
    | some v => some v
    | none => tryDigits rest
  else none

/-- A `(\d{2,6})` group whose regex continuation begins with `\s+`: only the
full maximal digit run can match (a shorter greedy backtrack leaves a digit
where a space is required), so the run length must lie in `[2,6]`. Returns
the captured value and the rest of the text. -/
def groupDigitsBeforeSpace (l : List Char) : Option (Nat × List Char) :=
  let r := runLen isDigitC l
  if 2 ≤ r && r ≤ 6 then some (digitsToNat (l.take r), l.drop r) else none

/-- `\s+LITERAL` where the literal starts with a non-space character:
consume the maximal space run (at least one) and match the literal. -/
def spacesThenLit (lit : List Char) (l : List Char) : Bool :=
  let s := runLen isSpaceC l
  1 ≤ s && startsWithL lit (l.drop s)

/-- Attempt of `(\d{2,6})\s+T2DM cases and controls each` at one position. -/
def ssPat3At (_prev : Option Char) (l : List Char) : Option Nat :=
  match groupDigitsBeforeSpace l with
  | some (v, rest) =>
    if spacesThenLit "T2DM cases and controls each".data rest then some v else none
  | none => none

/-- Attempt of `(\d{2,6})\s+(?:cases|subjects)[^\d]{0,30}?(\d{2,6})\s+controls`
at one position. The lazy gap `[^\d]{0,30}?` can only stop growing at the
first digit it reaches, so the second group starts at the first digit within
30 non-digit characters after the `cases`/`subjects` literal. -/
def ssPat4At (_prev : Option Char) (l : List Char) : Option Nat :=
  match groupDigitsBeforeSpace l with
  | none => none
  | some (v1, rest) =>
    let s := runLen isSpaceC rest
    if s = 0 then none
    else
      let afterLit : Option (List Char) :=
        if startsWithL "cases".data (rest.drop s) then some ((rest.drop s).drop 5)
        else if startsWithL "subjects".data (rest.drop s) then some ((rest.drop s).drop 8)
        else none
      match afterLit with
      | none => none
      | some r2 =>
        let g := runLen (fun c => !(isDigitC c)) r2
        if 30 < g then none
        else
          match groupDigitsBeforeSpace (r2.drop g) with
          | none => none
          | some (v2, rest2) =>
            if spacesThenLit "controls".data rest2 then some (v1 + v2) else none

/-- All matches of `re.findall(r'\b(\d{2,6})\b', t)`: maximal digit runs of
length 2 to 6 delimited by word boundaries. Fuel-driven scan (the fuel is
an upper bound on the number of characters consumed). -/
def numRunsF : Nat → Option Char → List Char → List Nat
  | 0, _, _ => []
  | _ + 1, _, [] => []
  | fuel + 1, prev, c :: cs =>
    if isDigitC c && boundaryBefore prev then
      let r := runLen isDigitC cs + 1
      let runChars := (c :: cs).take r
      let rest := (c :: cs).drop r
      let hd := if 2 ≤ r && r ≤ 6 && boundaryAfter rest then [digitsToNat runChars] else []
      hd ++ numRunsF fuel (some (runChars.getLastD c)) rest
    else
      numRunsF fuel (some c) cs

/-- `find_sample_size(text)` from `app.py`; `none` models the empty-string
result. -/
def find_sample_size (text : String) : Option Nat :=
  if text = "" then none
  else
    let t := removeCommas text.data
    match reSearch ssPat1At t with
    | some v => some v
    | none =>
    match reSearch ssPat2At t with
    | some v => some v
    | none =>
    match reSearch ssPat3At t with
    | some v => some (v * 2)
    | none =>
    match reSearch ssPat4At t with
    | some v => some v
    | none =>
      match numRunsF (t.length + 1) none t with
      | [] => none
      | n :: ns =>
        let big := ns.foldl Nat.max n
        if 30 ≤ big then some big else none

/-! ## `find_mean_age` -/

/-- Backtracking candidates of the group `[0-9]{1,3}(?:\.[0-9]+)?` at one
position, in regex preference order: longer integer part first; for each
integer part, the fractional variants (longest first) and then the variant
without a fraction. Each candidate is the captured text plus the rest. -/
def numTokCands (l : List Char) : List (List Char × List Char) :=
  let r := min (runLen isDigitC l) 3
  if r = 0 then []
  else
    (List.range r).flatMap (fun d =>
      let k := r - d
      let ip := l.take k
      let rest := l.drop k
      let fracCands :=
        match rest with
        | '.' :: tl =>
          let fr := runLen isDigitC tl
          (List.range fr).map (fun e =>
            let fk := fr - e
            (ip ++ '.' :: tl.take fk, tl.drop fk))
        | _ => []
      fracCands ++ [(ip, rest)])

/-- Match `\s*(?:±|plus-slash-minus)\s*` then hand the rest to the continuation. The
alternation characters are not spaces, so the maximal space runs are the
only viable choices. -/
def pmSign (l : List Char) : Option (List Char) :=
  let s := runLen isSpaceC l
  match l.drop s with
  | '±' :: rest => some (rest.drop (runLen isSpaceC rest))
  | '+' :: '/' :: '-' :: rest => some (rest.drop (runLen isSpaceC rest))
  | _ => none

/-- First candidate of `cands` on which the continuation succeeds. -/
def firstCand (cands : List (List Char × List Char)) (k : List Char → List Char → Option α) :
    Option α :=
  match cands with
  | [] => none
  | (g, rest) :: tl =>
    match k g rest with
    | some v => some v
    | none => firstCand tl k

/-- Attempt of mean-age pattern 1,
`mean age[^0-9]{0,6}(NUM)\s*(?:±|plus-slash-minus)\s*(NUM)` (case-insensitive), at one
position. The gap cannot contain digits, so it necessarily ends at the
first digit within 6 characters. -/
def maPat1At (_prev : Option Char) (l : List Char) : Option String :=
  if startsWithCI "mean age".data l then
    let rest := l.drop 8
    let g := runLen (fun c => !(isDigitC c)) rest
    if g ≤ 6 then
      firstCand (numTokCands (rest.drop g)) (fun x restX =>
        match pmSign restX with
        | some restS =>
          firstCand (numTokCands restS) (fun y _ =>
            some (String.mk x ++ " ± " ++ String.mk y))
        | none => none)
    else none
  else none

/-- Attempt of mean-age pattern 2, `mean age (?:was|of)?\s*(NUM)`
(case-insensitive), at one position. -/
def maPat2At (_prev : Option Char) (l : List Char) : Option String :=
  if startsWithCI "mean age ".data l then
    let rest := l.drop 9
    let tryNum : List Char → Option String := fun r =>
      let r := r.drop (runLen isSpaceC r)
      firstCand (numTokCands r) (fun x _ => some (String.mk x))
    match (if startsWithCI "was".data rest then tryNum (rest.drop 3) else none) with
    | some v => some v
    | none =>
      match (if startsWithCI "of".data rest then tryNum (rest.drop 2) else none) with
      | some v => some v
      | none => tryNum rest
  else none

/-- `case[:\s]*` / `control[:\s]*` helper: literal (case-insensitive), then
the maximal run of `:` or space characters (the following group starts with
a digit, so no backtracking on the run is observable). -/
def litColonSpaces (lit : List Char) (l : List Char) : Option (List Char) :=
  if startsWithCI lit l then
    let rest := l.drop lit.length
    some (rest.drop (runLen (fun c => c = ':' || isSpaceC c) rest))
  else none

/-- `NUM\s*(?:±|plus-slash-minus)\s*NUM` suffix used twice by mean-age pattern 3. -/
def agePair (l : List Char) : Option (String × String × List Char) :=
  firstCand (numTokCands l) (fun x restX =>
    match pmSign restX with
    | some restS =>
      firstCand (numTokCands restS) (fun y restY =>
        some (String.mk x, String.mk y, restY))
    | none => none)

/-- Splits of `l` as `taken ++ rest` where `taken` contains no newline, in
greedy (`.*`) preference order: longest `taken` first. -/
def dotStarSplits (l : List Char) : List (List Char) :=
  let n := runLen (fun c => c ≠ '\n') l
  (List.range (n + 1)).map (fun d => l.drop (n - d))

/-- Attempt of mean-age pattern 3,
`case[:\s]*(NUM)\s*(?:±|plus-slash-minus)\s*(NUM)\s*.*control[:\s]*(NUM)\s*(?:±|plus-slash-minus)\s*(NUM)`
(case-insensitive), at one position. `\s*` before `.*` is maximal (its
backtracking is subsumed by the `.*` splits that follow). -/
def maPat3At (_prev : Option Char) (l : List Char) : Option String :=
  match litColonSpaces "case".data l with
  | some rest =>
    match agePair rest with
    | some (a, b, restY) =>
      let restY := restY.drop (runLen isSpaceC restY)
      let trySplit : List Char → Option String := fun tail =>
        match litColonSpaces "control".data tail with
        | some rest2 =>
          match agePair rest2 with
          | some (c, d, _) =>
            some ("case:" ++ a ++ "±" ++ b ++ " control:" ++ c ++ "±" ++ d)
          | none => none
        | none => none
      (dotStarSplits restY).firstM trySplit
    | none => none
  | none => none

/-- `find_mean_age(text)` from `app.py`; `none` models the empty string. -/
def find_mean_age (text : String) : Option String :=
  if text = "" then none
  else
    match reSearch maPat1At text.data with
    | some v => some v
    | none =>
    match reSearch maPat2At text.data with
    | some v => some v
    | none => reSearch maPat3At text.data

/-! ## rsID collection (`extract_rsids_and_genes_with_annotations`, step 1) -/

/-- `re.findall` with non-overlapping leftmost matches: `f` yields the
captured value and the length of the whole match (always positive here);
scanning resumes right after each match. Fuel bounds the characters
consumed. -/
def findAllF (f : Option Char → List Char → Option (α × Nat)) :
    Nat → Option Char → List Char → List α
  | 0, _, _ => []
  | _ + 1, _, [] => []
  | fuel + 1, prev, c :: cs =>
    match f prev (c :: cs) with
    | some (v, len) =>
      let len := max len 1
      v :: findAllF f fuel (some (((c :: cs).take len).getLastD c)) ((c :: cs).drop len)
    | none => findAllF f fuel (some c) cs

/-- Attempt of `\b(rs\d{3,})\b` (case-insensitive) at one position: the
captured text is returned exactly as it appears in the corpus. -/
def rsMatchAt (prev : Option Char) (l : List Char) : Option (String × Nat) :=
  if boundaryBefore prev then
    match l with
    | c1 :: c2 :: rest =>
      if (c1 = 'r' || c1 = 'R') && (c2 = 's' || c2 = 'S') then
        let d := runLen isDigitC rest
        if 3 ≤ d && boundaryAfter (rest.drop d) then
          some (String.mk (c1 :: c2 :: rest.take d), d + 2)
        else none
      else none
    | _ => none
  else none

/-- `dict.fromkeys` deduplication: keep the first occurrence of each string,
preserving order. -/
def dedupFirst (l : List String) (seen : List String) : List String :=
  match l with
  | [] => []
  | x :: xs =>
    if x ∈ seen then dedupFirst xs seen else x :: dedupFirst xs (x :: seen)

/-- All rsID tokens of a corpus, in order of first appearance, deduplicated
by exact string equality. -/
def rsidsOf (text : String) : List String :=
  dedupFirst (findAllF rsMatchAt (text.data.length + 1) none text.data) []

/-! ## Gene association (steps 2 and 3) -/

/-- Attempt of gene pattern 1,
`([A-Za-z0-9\-\_]+)\s*\(\s*(RSID[^\)]*\))` with `re.I`, at one position.
Returns group 1 (the gene token) and group 2 (the parenthetical content
from the rsID through the closing parenthesis, as it appears in the text). -/
def genePat1At (rsi : List Char) (_prev : Option Char) (l : List Char) : Option (List Char × List Char) :=
  let t := runLen isGeneTokC l
  if t = 0 then none
  else
    let rest1 := l.drop t
    let rest2 := rest1.drop (runLen isSpaceC rest1)
    match rest2 with
    | '(' :: rest3 =>
      let rest4 := rest3.drop (runLen isSpaceC rest3)
      if startsWithCI rsi rest4 then
        let rest5 := rest4.drop rsi.length
        let g := runLen (fun c => c ≠ ')') rest5
        match rest5.drop g with
        | ')' :: _ => some (l.take t, rest4.take rsi.length ++ rest5.take g ++ [')'])
        | _ => none
      else none
    | _ => none

/-- Attempt of gene pattern 2, `RSID\s*\/\s*([A-Za-z0-9\-\_]+)`
(case-sensitive), at one position. -/
def genePat2At (rsi : List Char) (_prev : Option Char) (l : List Char) : Option (List Char) :=
  if startsWithL rsi l then
    let rest1 := l.drop rsi.length
    let rest2 := rest1.drop (runLen isSpaceC rest1)
    match rest2 with
    | '/' :: rest3 =>
      let rest4 := rest3.drop (runLen isSpaceC rest3)
      let t := runLen isGeneTokC rest4
      if t = 0 then none else some (rest4.take t)
    | _ => none
  else none

/-- Attempt of gene pattern 3, `([A-Z0-9]{2,15})\s{0,6}[^A-Za-z0-9]{0,6}RSID`
(case-sensitive), at one position. A backtracked (shorter) token prefix is
always followed by another `[A-Z0-9]` character, which neither gap class nor
the literal can consume, so only the full maximal run (of length 2 to 15)
can match. -/
def genePat3At (rsi : List Char) (_prev : Option Char) (l : List Char) : Option (List Char) :=
  let t := runLen isUpperDigitC l
  if 2 ≤ t && t ≤ 15 then
    let rest := l.drop t
    let ok := (List.range 7).any (fun s =>
      ((rest.take s).length = s && (rest.take s).all isSpaceC) &&
      (List.range 7).any (fun g =>
        let rest2 := (rest.drop s)
        ((rest2.take g).length = g && (rest2.take g).all (fun c => !(isAlnumC c))) &&
        startsWithL rsi (rest2.drop g)))
    if ok then some (l.take t) else none
  else none

/-- Per-variant association record: `{'gene': ..., 'annot': ...}`. -/
structure GeneInfo where
  gene : Option String
  annot : String
deriving Repr, DecidableEq

/-- The loop body of step 2 for one rsID: try the three patterns in order
against the full corpus; mirror the annotation slicing of pattern 1. -/
def resolveGeneInfo (text : List Char) (rsi : String) : GeneInfo :=
  match reSearch (genePat1At rsi.data) text with
  | some (tok, inner) =>
    let gene := String.mk (stripL tok)
    let innerS := stripL inner
    let annot :=
      if startsWithL rsi.data innerS then stripL (innerS.drop rsi.data.length) else innerS
    { gene := some gene, annot := String.mk annot }
  | none =>
    match reSearch (genePat2At rsi.data) text with
    | some tok => { gene := some (String.mk (stripL tok)), annot := "" }
    | none =>
      match reSearch (genePat3At rsi.data) text with
      | some tok => { gene := some (String.mk (stripL tok)), annot := "" }
      | none => { gene := none, annot := "" }

/-- `dict.setdefault(gene, idx)` on the insertion-ordered association list. -/
def setdefaultL (pos : List (String × Nat)) (g : String) (idx : Nat) : List (String × Nat) :=
  if pos.any (fun e => e.1 = g) then pos else pos ++ [(g, idx)]

/-- Step-2 loop over the rsIDs (with their enumeration index): builds the
`gene_map` association list (in rsID order) and `gene_first_pos` (in
insertion order). -/
def geneLoop (text : List Char) :
    List String → Nat → List (String × Nat) → List (String × GeneInfo) × List (String × Nat)
  | [], _, pos => ([], pos)
  | rsi :: rest, idx, pos =>
    let info := resolveGeneInfo text rsi
    let pos' :=
      match info.gene with
      | some g => setdefaultL pos g idx
      | none => pos
    let r := geneLoop text rest (idx + 1) pos'
    ((rsi, info) :: r.1, r.2)

/-- Stable insertion of one element into a list sorted by second component,
placing it after every element with a key less than or equal to its own
(this reproduces the stable ascending order of Python `sorted`). -/
def insByPos (x : String × Nat) : List (String × Nat) → List (String × Nat)
  | [] => [x]
  | y :: ys => if y.2 ≤ x.2 then y :: insByPos x ys else x :: y :: ys

/-- Stable sort by second component (`sorted(items, key=lambda kv: kv[1])`). -/
def sortByPos (l : List (String × Nat)) : List (String × Nat) :=
  l.foldl (fun acc x => insByPos x acc) []

/-- `extract_rsids_and_genes_with_annotations(text)` from `app.py`:
the rsID list, the per-rsID gene map, and the gene names ordered by the
index of each gene's first variant. -/
def extract_rsids_and_genes (text : String) :
    List String × List (String × GeneInfo) × List String :=
  if text = "" then ([], [], [])
  else
    let rsids := rsidsOf text
    let r := geneLoop text.data rsids 0 []
    (rsids, r.1, (sortByPos r.2).map (fun e => e.1))

/-- `gene_map.get(rsi, {})` of the numbered-gene loop: a missing key yields
an empty record (no gene, empty annotation). -/
def lookupInfo (m : List (String × GeneInfo)) (k : String) : GeneInfo :=
  match m.find? (fun e => e.1 = k) with
  | some e => e.2
  | none => { gene := none, annot := "" }

/-! ## IEEE-754 binary64 model

The source compares and formats Python floats (`float(...)`, `/100.0`,
`f"{val:.3f}"`, `> 1`, `<= 0.05`). A non-negative double is modelled
exactly as a dyadic rational `m / 2^k` (or infinity); conversions round to
53 significant bits with ties to even, as CPython does. -/

/-- Round `a / b` (with `b > 0`) to the nearest natural, ties to even. -/
def rhe (a b : Nat) : Nat :=
  let q := a / b
  let r := a % b
  if b < 2 * r then q + 1
  else if 2 * r < b then q
  else if q % 2 = 1 then q + 1 else q

/-- Number of binary digits of `n` (fuel-driven, structural). -/
def bitLenAux : Nat → Nat → Nat
  | 0, _ => 0
  | fuel + 1, n => if n = 0 then 0 else bitLenAux fuel (n / 2) + 1

def bitLen (n : Nat) : Nat := bitLenAux 20000 n

/-- Is `2^e ≤ num / den`? (`num, den > 0`) -/
def le2pow (e : Int) (num den : Nat) : Bool :=
  if 0 ≤ e then 2 ^ e.toNat * den ≤ num else den ≤ num * 2 ^ (-e).toNat

/-- `⌊log₂ (num / den)⌋` for positive `num`, `den`. -/
def floorLog2 (num den : Nat) : Int :=
  let d : Int := (bitLen num : Int) - (bitLen den : Int)
  if le2pow (d + 1) num den then d + 1
  else if le2pow d num den then d
  else if le2pow (d - 1) num den then d - 1
  else d - 2

/-- A non-negative Python float: infinity or an exact dyadic `m / 2^k`. -/
inductive PyFloat where
  | inf : PyFloat
  | fin (m : Nat) (k : Nat) : PyFloat
deriving Repr, DecidableEq

/-- Finish a rounding: overflow past `2^1024` becomes infinity. The bound
`2^(1024+k) ≤ m` is tested through the bit length (`m` has more than
`1024 + k` bits) to keep evaluation cheap. -/
def mkFin (m k : Nat) : PyFloat :=
  if 1024 + k < bitLen m then .inf else .fin m k

/-- Round the exact rational `num / den` (`den > 0`) to the nearest binary64
value: 53 significant bits for normal numbers, a fixed `2^-1074` grid below
`2^-1022`, ties to even. -/
def roundPosRat (num den : Nat) : PyFloat :=
  if num = 0 then .fin 0 0
  else
    let e := floorLog2 num den
    if e ≤ -1023 then mkFin (rhe (num * 2 ^ 1074) den) 1074
    else if e ≤ 52 then mkFin (rhe (num * 2 ^ (52 - e).toNat) den) (52 - e).toNat
    else mkFin (rhe num (den * 2 ^ (e - 52).toNat) * 2 ^ (e - 52).toNat) 0

/-- `a ≤ b` on model floats. -/
def pfLE : PyFloat → PyFloat → Bool
  | _, .inf => true
  | .inf, .fin _ _ => false
  | .fin m k, .fin n j => m * 2 ^ j ≤ n * 2 ^ k

/-- `a < b` on model floats. -/
def pfLT : PyFloat → PyFloat → Bool
  | .inf, _ => false
  | .fin _ _, .inf => true
  | .fin m k, .fin n j => m * 2 ^ j < n * 2 ^ k

/-- Parse a token over `[0-9.]` the way Python `float()` accepts it: at
least one digit, at most one dot; the result is the scaled integer and the
number of fractional digits. -/
def parseDecimal (l : List Char) : Option (Nat × Nat) :=
  let intRun := runLen isDigitC l
  let rest := l.drop intRun
  match rest with
  | [] => if intRun = 0 then none else some (digitsToNat l, 0)
  | '.' :: frac =>
    let fracRun := runLen isDigitC frac
    if frac.drop fracRun = [] && (intRun ≠ 0 || fracRun ≠ 0) then
      some (digitsToNat (l.take intRun ++ frac), fracRun)
    else none
  | _ => none

/-- Python `float(s)` on the digit/dot tokens produced by the extractors
(`none` models `ValueError`). -/
def pyFloat? (s : String) : Option PyFloat :=
  (parseDecimal s.data).map (fun p => roundPosRat p.1 (10 ^ p.2))

/-- Python float division by `100.0`. -/
def pfDiv100 : PyFloat → PyFloat
  | .inf => .inf
  | .fin m k => if m = 0 then .fin 0 0 else roundPosRat m (2 ^ k * 100)

/-- Decimal digits of a natural number (fuel-driven). -/
def natDigitsAux : Nat → Nat → List Char → List Char
  | 0, _, acc => acc
  | _ + 1, 0, acc => acc
  | fuel + 1, n, acc =>
    natDigitsAux fuel (n / 10) (Char.ofNat (n % 10 + 48) :: acc)

/-- Decimal rendering of a natural number. -/
def natRepr (n : Nat) : String :=
  if n = 0 then "0" else String.mk (natDigitsAux 10000 n [])

/-- `f"{val:.3f}"` for a finite non-negative model float: CPython formats
the exact binary value correctly rounded to 3 decimals, ties to even. -/
def pfFormat3 (m k : Nat) : String :=
  let n3 := rhe (m * 1000) (2 ^ k)
  let frac := n3 % 1000
  let pad := if frac < 10 then "00" else if frac < 100 then "0" else ""
  natRepr (n3 / 1000) ++ "." ++ pad ++ natRepr frac

/-! ## `extract_allele_freqs` -/

/-- The group `([01]?\.\d{1,4})` at one position, with the `?` tried
greedily first; a failed mandatory dot after a consumed `[01]` cannot be
rescued by the empty alternative (the position holds a digit, not a dot). -/
def freqNumMatch (l : List Char) : Option (List Char) :=
  match l with
  | c :: rest =>
    if c = '0' || c = '1' then
      match rest with
      | '.' :: rest2 =>
        let r := runLen isDigitC rest2
        if 1 ≤ r then some (c :: '.' :: rest2.take (min r 4)) else none
      | _ => none
    else if c = '.' then
      let r := runLen isDigitC rest
      if 1 ≤ r then some ('.' :: rest.take (min r 4)) else none
    else none
  | [] => none

/-- Greedy `[^0-9]{0,8}` gap followed by a continuation: try the longest
all-non-digit gap (at most 8) first, then shorter ones. -/
def gapThen (f : List Char → Option α) (rest : List Char) : Option α :=
  let n := min 8 (runLen (fun c => !(isDigitC c)) rest)
  (List.range (n + 1)).firstM (fun d => f (rest.drop (n - d)))

/-- Attempt of `RSID[^0-9]{0,8}([01]?\.\d{1,4})` at one position. -/
def freqPat1At (rsi : List Char) (_prev : Option Char) (l : List Char) : Option (List Char) :=
  if startsWithL rsi l then gapThen freqNumMatch (l.drop rsi.length) else none

/-- The group `([0-9]{1,3}\.\d{1,2})\s*%` at one position: both digit runs
must be fully consumed (a shorter greedy choice leaves a digit where a dot,
space or percent sign is required). -/
def pctNumMatch (l : List Char) : Option (List Char) :=
  let ir := runLen isDigitC l
  if 1 ≤ ir && ir ≤ 3 then
    match l.drop ir with
    | '.' :: rest =>
      let fr := runLen isDigitC rest
      if 1 ≤ fr && fr ≤ 2 then
        let rest2 := rest.drop fr
        match rest2.drop (runLen isSpaceC rest2) with
        | '%' :: _ => some (l.take ir ++ '.' :: rest.take fr)
        | _ => none
      else none
    | _ => none
  else none

/-- Attempt of `RSID[^0-9]{0,8}([0-9]{1,3}\.\d{1,2})\s*%` at one position. -/
def freqPat2At (rsi : List Char) (_prev : Option Char) (l : List Char) : Option (List Char) :=
  if startsWithL rsi l then gapThen pctNumMatch (l.drop rsi.length) else none

/-- Frequency lookup for one rsID: the decimal pattern, then the percentage
pattern converted by `f"{float(g)/100.0:.3f}"`. (The `except` fallback of
the source is unreachable: the captured group always parses as a float.) -/
def freqOf (text : List Char) (rsi : String) : Option String :=
  match reSearch (freqPat1At rsi.data) text with
  | some g => some (String.mk g)
  | none =>
    match reSearch (freqPat2At rsi.data) text with
    | some g =>
      match (parseDecimal g).map (fun p => pfDiv100 (roundPosRat p.1 (10 ^ p.2))) with
      | some (.fin m k) => some (pfFormat3 m k)
      | _ => none
    | none => none

/-- `extract_allele_freqs(text, rsids)` from `app.py`: an insertion-ordered
map from each rsID to its detected frequency string (or `None`). -/
def extract_allele_freqs (text : String) (rsids : List String) :
    List (String × Option String) :=
  if text = "" then rsids.map (fun r => (r, none))
  else rsids.map (fun r => (r, freqOf text.data r))

/-! ## `extract_or_pvals` -/

/-- `\s*[=:]?\s*`: maximal spaces, at most one `=`/`:`, maximal spaces.
(The following token starts with a digit, so no backtracking is
observable.) -/
def sepEqColon (l : List Char) : List Char :=
  let l1 := l.drop (runLen isSpaceC l)
  let l2 := match l1 with
    | '=' :: r => r
    | ':' :: r => r
    | _ => l1
  l2.drop (runLen isSpaceC l2)

/-- `([0-9]+\.[0-9]+)\b`: both digit runs are maximal (shorter greedy
choices leave a digit where a dot or word boundary is required); the word
boundary demands a non-word character (or the end) after the fraction. -/
def floatGroupB (l : List Char) : Option (List Char × List Char) :=
  let ir := runLen isDigitC l
  if ir = 0 then none
  else
    match l.drop ir with
    | '.' :: rest =>
      let fr := runLen isDigitC rest
      if 1 ≤ fr && boundaryAfter (rest.drop fr) then
        some (l.take ir ++ '.' :: rest.take fr, rest.drop fr)
      else none
    | _ => none

/-- `([0-9]+\.[0-9]+)` without a trailing boundary (pattern 2). -/
def floatGroupNoB (l : List Char) : Option (List Char × List Char) :=
  let ir := runLen isDigitC l
  if ir = 0 then none
  else
    match l.drop ir with
    | '.' :: rest =>
      let fr := runLen isDigitC rest
      if 1 ≤ fr then some (l.take ir ++ '.' :: rest.take fr, rest.drop fr)
      else none
    | _ => none

/-- `P\s*[=<>]\s*([0-9\.>]+)` (case-insensitive on the letter). -/
def pMatch (l : List Char) : Option (List Char × List Char) :=
  match l with
  | c :: rest =>
    if c = 'P' || c = 'p' then
      let r1 := rest.drop (runLen isSpaceC rest)
      match r1 with
      | c2 :: r2 =>
        if c2 = '=' || c2 = '<' || c2 = '>' then
          let r3 := r2.drop (runLen isSpaceC r2)
          let n := runLen (fun c => isDigitC c || c = '.' || c = '>') r3
          if 1 ≤ n then some (r3.take n, r3.drop n) else none
        else none
      | [] => none
    else none
  | [] => none

/-- `(?:OR|odds ratio)\s*[=:]?\s*(FLOAT)\b[^\)]{0,80}?(?:P\s*[=<>]\s*(PV))?`
(case-insensitive). The lazy gap is followed only by a group that can match
the empty string, so it never grows: the P clause is captured exactly when
it matches immediately after the float's word boundary. Returns the two
captured groups and the rest of the text after the match. -/
def tryOrTail (l : List Char) : Option (String × Option String × List Char) :=
  let orLen : Option Nat :=
    if startsWithCI "or".data l then some 2
    else if startsWithCI "odds ratio".data l then some 10
    else none
  match orLen with
  | none => none
  | some n =>
    match floatGroupB (sepEqColon (l.drop n)) with
    | none => none
    | some (fchars, rest) =>
      match pMatch rest with
      | some (pchars, rest2) => some (String.mk fchars, some (String.mk pchars), rest2)
      | none => some (String.mk fchars, none, rest)

/-- One deduplicated odds-ratio/p-value entry. -/
structure OrEntry where
  rsid : Option String
  orv : String
  pv : Option String
deriving Repr, DecidableEq

/-- Descending enumeration `hi, hi-1, ..., lo`. -/
def descRange (hi lo : Nat) : List Nat :=
  (List.range (hi + 1 - lo)).map (fun d => hi - d)

/-- Attempt of association pattern 1,
`(?:(rs\d{3,})[^\(\),;]{0,40})?(?:OR|odds ratio)...` (case-insensitive), at
one position; the optional rsID prefix is tried greedily first, with its
digit run and its gap backtracking from longest to shortest. Returns the
groups and the length consumed. -/
def orp1At (_prev : Option Char) (l : List Char) : Option ((Option String × String × Option String) × Nat) :=
  let withRs : Option ((Option String × String × Option String) × Nat) :=
    match l with
    | c1 :: c2 :: rest0 =>
      if (c1 = 'r' || c1 = 'R') && (c2 = 's' || c2 = 'S') then
        let dr := runLen isDigitC rest0
        if 3 ≤ dr then
          (descRange dr 3).firstM (fun dl =>
            let rsid := String.mk (l.take (2 + dl))
            let rest := l.drop (2 + dl)
            let gm := min 40 (runLen (fun c => !(c = '(' || c = ')' || c = ',' || c = ';')) rest)
            (descRange gm 0).firstM (fun g =>
              (tryOrTail (rest.drop g)).map (fun r =>
                ((some rsid, r.1, r.2.1), l.length - r.2.2.length))))
        else none
      else none
    | _ => none
  match withRs with
  | some r => some r
  | none =>
    (tryOrTail l).map (fun r => ((none, r.1, r.2.1), l.length - r.2.2.length))

/-- Lazy `.*?` scan: try split points from left to right, never crossing a
newline. -/
def lazyScan (f : List Char → Option α) (l : List Char) : Option α :=
  let n := runLen (fun c => c ≠ '\n') l
  (List.range (n + 1)).firstM (fun i => f (l.drop i))

/-- Attempt of association pattern 2,
`(rs\d{3,})[^\)]{0,40}\(.*?OR\s*[=:]?\s*(FLOAT).*?P\s*[=<>]\s*(PV)`
(case-insensitive), at one position. A float whose lazy continuation fails
cannot be rescued by shortening its digit runs (the `P` literal can never
sit inside the digits it would release), so only maximal digit runs are
tried. -/
def orp2At (_prev : Option Char) (l : List Char) : Option ((Option String × String × Option String) × Nat) :=
  match l with
  | c1 :: c2 :: rest0 =>
    if (c1 = 'r' || c1 = 'R') && (c2 = 's' || c2 = 'S') then
      let dr := runLen isDigitC rest0
      if 3 ≤ dr then
        (descRange dr 3).firstM (fun dl =>
          let rsid := String.mk (l.take (2 + dl))
          let rest := l.drop (2 + dl)
          let gm := min 40 (runLen (fun c => c ≠ ')') rest)
          (descRange gm 0).firstM (fun g =>
            match rest.drop g with
            | '(' :: rest2 =>
              lazyScan (fun t =>
                let orLen : Option Nat :=
                  if startsWithCI "or".data t then some 2
                  else if startsWithCI "odds ratio".data t then some 10
                  else none
                match orLen with
                | none => none
                | some n =>
                  match floatGroupNoB (sepEqColon (t.drop n)) with
                  | none => none
                  | some (fchars, restF) =>
                    lazyScan (fun u =>
                      (pMatch u).map (fun pr =>
                        ((some rsid, String.mk fchars, some (String.mk pr.1)),
                          l.length - pr.2.length))) restF) rest2
            | _ => none))
      else none
    else none
  | _ => none

/-- The deduplication key: the rsID if present, otherwise
`f"OR_{orv}_P_{p}"` (where an absent p-value prints as `None`). -/
def orKey (e : OrEntry) : String :=
  match e.rsid with
  | some r => r
  | none => "OR_" ++ e.orv ++ "_P_" ++ (match e.pv with | some p => p | none => "None")

/-- First-occurrence-wins deduplication by `orKey`. -/
def dedupEntries : List OrEntry → List String → List OrEntry
  | [], _ => []
  | e :: rest, seen =>
    if seen.contains (orKey e) then dedupEntries rest seen
    else e :: dedupEntries rest (orKey e :: seen)

/-- `extract_or_pvals(text)` from `app.py`: all pattern-1 matches, then all
pattern-2 matches, deduplicated with the first occurrence winning. -/
def extract_or_pvals (text : String) : List OrEntry :=
  if text = "" then []
  else
    let mk : (Option String × String × Option String) → OrEntry :=
      fun t => { rsid := t.1, orv := t.2.1, pv := t.2.2 }
    let e1 := (findAllF orp1At (text.data.length + 1) none text.data).map mk
    let e2 := (findAllF orp2At (text.data.length + 1) none text.data).map mk
    dedupEntries (e1 ++ e2) []

/-! ## `infer_effect_direction` -/

/-- The Python double of the literal `0.05`. -/
def pf005 : PyFloat := roundPosRat 5 100

/-- The Python double of the literal `1`. -/
def pf1 : PyFloat := roundPosRat 1 1

/-- The parsed p-value used by `infer_effect_direction`: a present,
non-empty `p_str` with every `>` character removed, when it parses as a
float (`none` mirrors both `p_str` being untruthy and the `except`
branches that leave `p_sig` as `None`). -/
def pParsed (pS : Option String) : Option PyFloat :=
  match pS with
  | none => none
  | some s =>
    if s = "" then none
    else pyFloat? (String.mk (s.data.filter (fun c => c ≠ '>')))

/-- `infer_effect_direction(or_str, p_str)` from `app.py`. -/
def infer_effect_direction (orS : String) (pS : Option String) : String :=
  match pyFloat? orS with
  | none => ""
  | some orv =>
    let pSig : Option Bool := (pParsed pS).map (fun pv => pfLE pv pf005)
    let eff :=
      if pfLT pf1 orv then "Risk ↑"
      else if pfLT orv pf1 then "Risk ↓"
      else "No change"
    if pSig = some false then "No significant effect (ns)" else eff

/-! ## Parsed-page model

The core consumes an already-parsed HTML document through a fixed set of
BeautifulSoup queries; the `Soup` structure records exactly the data those
queries read. `titleStr` models `soup.title` (`none`: no `<title>` tag) and
its `.string` (`some none`: the tag exists but has no single string child,
in which case `.string` is Python `None`; a bs4 `Tag` itself is always
truthy). -/

structure MetaTag where
  nameAttr : Option String
  propAttr : Option String
  content : Option String
deriving Repr, DecidableEq

structure Paragraph where
  text : String
  textSp : String
deriving Repr, DecidableEq

structure Soup where
  metas : List MetaTag
  titleStr : Option (Option String)
  authorContainer : Option (List String)
  anchorTexts : List String
  abstractNode : Option String
  paragraphs : List Paragraph
  pageText : String
deriving Repr, DecidableEq

/-- `get_meta(soup, key)` from `app.py`: the first `<meta>` whose `name`
attribute equals the key and, only if that tag's content is untruthy, the
first one whose `property` attribute equals the key. -/
def get_meta (s : Soup) (key : String) : Option String :=
  let byAttr : (MetaTag → Option String) → Option String := fun getA =>
    match s.metas.find? (fun t => getA t = some key) with
    | some t =>
      match t.content with
      | some c => if c = "" then none else some (String.mk (stripL c.data))
      | none => none
    | none => none
  match byAttr (fun t => t.nameAttr) with
  | some v => some v
  | none => byAttr (fun t => t.propAttr)

/-- Python `a or b` on optional strings (`None` and `''` are falsy). -/
def pyOrS (a b : Option String) : Option String :=
  match a with
  | some s => if s = "" then b else a
  | none => b

/-- Python `a or b` with a plain-string default. -/
def pyOrStr (a : Option String) (b : String) : String :=
  match a with
  | some s => if s = "" then b else s
  | none => b

/-- `html.unescape`, modelled as the identity: the corpora considered here
contain no HTML character entities, on which `unescape` acts as the
identity. -/
def html_unescape (s : String) : String := s

/-- One word of the author-name pattern: `[A-Z][a-z]+` (the lower-case run
is maximal; a shorter greedy choice leaves a lower-case letter where a
space or the end is required). -/
def nameWord (l : List Char) : Option (List Char) :=
  match l with
  | c :: rest =>
    if isUpperC c then
      let r := runLen isLowerC rest
      if 1 ≤ r then some (rest.drop r) else none
    else none
  | [] => none

/-- `$` of `re.match`: the end of the string or a final newline. -/
def atDollar (l : List Char) : Bool := l = [] || l = ['\n']

/-- The repeated tail `(?:\s+[A-Z][a-z]+)+$` (at least one repetition). -/
def namePatTail : Nat → List Char → Bool
  | 0, _ => false
  | fuel + 1, l =>
    let s := runLen isSpaceC l
    if s = 0 then false
    else
      match nameWord (l.drop s) with
      | some rest => if atDollar rest then true else namePatTail fuel rest
      | none => false

/-- `re.match(r'^[A-Z][a-z]+(?:\s+[A-Z][a-z]+)+$', txt)` as a Boolean. -/
def namePatMatch (txt : String) : Bool :=
  match nameWord txt.data with
  | some rest => namePatTail (txt.data.length + 1) rest
  | none => false

/-- First text in the list that is non-empty and matches the author-name
pattern (the `break` of the source loops). -/
def findNameIn (lst : List String) : String :=
  match lst.find? (fun txt => txt ≠ "" && namePatMatch txt) with
  | some t => t
  | none => ""

/-- `(\d{4})` at one position. -/
def year4At (_prev : Option Char) (l : List Char) : Option String :=
  if 4 ≤ runLen isDigitC l then some (String.mk (l.take 4)) else none

/-- `©\s*(\d{4})` at one position. -/
def copyYearAt (_prev : Option Char) (l : List Char) : Option String :=
  match l with
  | '©' :: rest =>
    let r := rest.drop (runLen isSpaceC rest)
    if 4 ≤ runLen isDigitC r then some (String.mk (r.take 4)) else none
  | _ => none

/-- The dictionary returned by `extract_basic_metadata`. -/
structure MetaOut where
  title : String
  first_author : String
  authors_list : String
  journal : String
  doi : String
  pmid : String
  year : String
deriving Repr, DecidableEq

/-- `extract_basic_metadata(soup)` from `app.py`. The only failing path is
the title fallback `soup.title.string.strip() if soup.title else ''`: when
a `<title>` tag exists but `.string` is `None`, the `.strip()` call raises
`AttributeError`; every other path is total. -/
def extract_basic_metadata (s : Soup) : Except String MetaOut :=
  let titleR : Except String String :=
    match pyOrS (get_meta s "citation_title") (get_meta s "og:title") with
    | some t =>
      if t = "" then
        match s.titleStr with
        | none => .ok ""
        | some none =>
          .error "AttributeError: NoneType object has no attribute strip"
        | some (some v) => .ok (String.mk (stripL v.data))
      else .ok t
    | none =>
      match s.titleStr with
      | none => .ok ""
      | some none =>
        .error "AttributeError: NoneType object has no attribute strip"
      | some (some v) => .ok (String.mk (stripL v.data))
  match titleR with
  | .error e => .error e
  | .ok title =>
    let journal :=
      pyOrStr (pyOrS (pyOrS (get_meta s "citation_journal_title")
        (get_meta s "citation_journal")) (get_meta s "og:site_name")) ""
    let doi := pyOrStr (pyOrS (get_meta s "citation_doi") (get_meta s "DC.identifier")) ""
    let pmid := pyOrStr (get_meta s "citation_pmid") ""
    let date :=
      pyOrStr (pyOrS (get_meta s "citation_publication_date") (get_meta s "citation_date")) ""
    let year1 :=
      if date ≠ "" then
        match reSearch year4At date.data with
        | some y => y
        | none => ""
      else ""
    let year :=
      if year1 = "" then
        match reSearch copyYearAt s.pageText.data with
        | some y => y
        | none => ""
      else year1
    let authors_meta := s.metas.filterMap (fun t =>
      if t.nameAttr = some "citation_author" then
        match t.content with
        | some c => if c = "" then none else some (String.mk (stripL c.data))
        | none => none
      else none)
    let first0 := authors_meta.headD ""
    let authors0 := String.intercalate ", " authors_meta
    let firstA :=
      if first0 = "" then
        let fromContainer :=
          match s.authorContainer with
          | some lst => findNameIn (lst.take 30)
          | none => ""
        if fromContainer = "" then findNameIn (s.anchorTexts.take 120) else fromContainer
      else first0
    let authorsA :=
      if first0 = "" && authors0 = "" && firstA ≠ "" then firstA else authors0
    .ok
      { title := if title = "" then "" else html_unescape title
        first_author := firstA
        authors_list := pyOrStr (some authorsA) firstA
        journal := if journal = "" then "" else html_unescape journal
        doi := doi
        pmid := pmid
        year := year }

/-- Abstract fallback: the container whose class or id mentions `abstract`,
then the largest paragraph by raw text length (Python `max` keeps the first
maximum), then the empty string. -/
def abstractFallback (s : Soup) : String :=
  match s.abstractNode with
  | some t => t
  | none =>
    match s.paragraphs with
    | [] => ""
    | p :: ps =>
      (ps.foldl (fun best q =>
        if best.text.length < q.text.length then q else best) p).textSp

/-- `get_abstract_text(soup)` from `app.py`. -/
def get_abstract_text (s : Soup) : String :=
  match pyOrS (pyOrS (get_meta s "citation_abstract") (get_meta s "og:description"))
      (get_meta s "description") with
  | some c => if c ≠ "" then c else abstractFallback s
  | none => abstractFallback s

/-! ## `parse_article`: record assembly -/

/-- A cell of the output row: Python writes either a string or an integer
(the sample size) into the dictionary. -/
inductive Cell where
  | s (v : String) : Cell
  | i (v : Nat) : Cell
deriving Repr, DecidableEq

/-- The 18-field output row, in the column order of `app.py`. -/
structure Row where
  authors : String
  title : String
  year : String
  journal : String
  doi_pmid : String
  study_design : String
  region : String
  sample_size : Cell
  mean_age : String
  gene : String
  snp_variant : String
  genotyping_method : String
  allele_freq : String
  reported_assoc : String
  effect_direction : String
  p_value : String
  quality : String
  comments : String
deriving Repr, DecidableEq

/-- Display of one variant inside a gene group: a stripped non-empty
annotation is prefixed with a space unless it already starts with an
opening parenthesis or a space. -/
def rsDisplay (info : GeneInfo) (rsi : String) : String :=
  let annot := String.mk (stripL info.annot.data)
  if annot = "" then rsi
  else if startsWithL "(".data annot.data || startsWithL " ".data annot.data then
    rsi ++ annot
  else rsi ++ " " ++ annot

/-- The numbered gene-group entries: one entry per gene in order, numbering
only genes that collected at least one variant. -/
def buildNumbered (rsids : List String) (gmap : List (String × GeneInfo)) :
    List String → Nat → List String
  | [], _ => []
  | g :: gs, idx =>
    let rsFor := rsids.filterMap (fun rsi =>
      let e := lookupInfo gmap rsi
      if e.gene = some g then some (rsDisplay e rsi) else none)
    match rsFor with
    | [] => buildNumbered rsids gmap gs idx
    | _ =>
      (natRepr idx ++ ":" ++ g ++ "(" ++ String.intercalate ", " rsFor ++ ")")
        :: buildNumbered rsids gmap gs (idx + 1)

/-- The Gene cell of the row for a given corpus: numbered gene groups, or
the per-rsID fallback when no gene association exists. -/
def gene_cell_of (text : String) : String :=
  let (rsids, gmap, genesOrd) := extract_rsids_and_genes text
  match genesOrd with
  | _ :: _ => String.intercalate "\n" (buildNumbered rsids gmap genesOrd 1)
  | [] =>
    String.intercalate "\n"
      (rsids.enum.map (fun p => natRepr (p.1 + 1) ++ ":" ++ p.2))

/-- The gene part of one allele-frequency line:
`gene_map.get(r, {}).get('gene', '')` rendered by an f-string — a present
key whose value is `None` prints as `None`. -/
def geneNamePart (gmap : List (String × GeneInfo)) (r : String) : String :=
  match gmap.find? (fun e => e.1 = r) with
  | none => ""
  | some e =>
    match e.2.gene with
    | none => "None"
    | some g => g

/-- The allele-frequency cell for a given corpus: one line per rsID with a
detected frequency. -/
def allele_freq_cell_of (text : String) : String :=
  let (rsids, gmap, _) := extract_rsids_and_genes text
  let freqs := extract_allele_freqs text rsids
  match rsids with
  | [] => ""
  | _ =>
    String.intercalate "\n" (rsids.filterMap (fun r =>
      match (freqs.find? (fun e => e.1 = r)).bind (fun e => e.2) with
      | some f => some (geneNamePart gmap r ++ " (" ++ r ++ ") → " ++ f)
      | none => none))

/-- Attempt of the p-value-only fallback pattern
`RSID[^.]{0,80}P\s*[=<>]\s*([0-9\.>]+)` (case-insensitive) at one position:
the greedy dot-free gap prefers the farthest matching `P` clause. -/
def pvOnlyAt (rsi : List Char) (_prev : Option Char) (l : List Char) : Option String :=
  if startsWithCI rsi l then
    let rest := l.drop rsi.length
    let gm := min 80 (runLen (fun c => c ≠ '.') rest)
    (descRange gm 0).firstM (fun g => (pMatch (rest.drop g)).map (fun p => String.mk p.1))
  else none

/-- The association / effect-direction / p-value line triple produced for
one deduplicated odds-ratio entry. -/
def orLines (e : OrEntry) : String × String × String :=
  let rsi := pyOrStr e.rsid ""
  let orv := e.orv
  let p := pyOrStr e.pv ""
  let label := if rsi = "" then "OR:" ++ orv else rsi
  let eff := if orv = "" then "" else infer_effect_direction orv (some p)
  (label ++ " (OR=" ++ orv ++ ") P=" ++ p,
   if eff = "" then label ++ " → Unknown" else label ++ " → " ++ eff,
   label ++ " → " ++ p)

/-- The pure core of `parse_article(url)` from `app.py`, taking the parsed
page in place of the network fetch. The only failure is the metadata
extractor's reachable `AttributeError`. -/
def parse_article (s : Soup) : Except String Row :=
  match extract_basic_metadata s with
  | .error e => .error e
  | .ok meta =>
    let abstract := get_abstract_text s
    let big := String.intercalate " "
      [meta.title, meta.authors_list, meta.journal, meta.doi, abstract, s.pageText]
    let study_design := find_study_design big
    let rsids := (extract_rsids_and_genes big).1
    let or_pvals := extract_or_pvals big
    let triples := or_pvals.map orLines
    let fallbackPv : List (String × String) :=
      match or_pvals, rsids with
      | [], _ :: _ =>
        rsids.filterMap (fun rsi =>
          (reSearch (pvOnlyAt rsi.data) big.data).map (fun pv =>
            (rsi ++ " → " ++ pv, rsi ++ " → P=" ++ pv)))
      | _, _ => []
    let reported := triples.map (fun t => t.1) ++ fallbackPv.map (fun t => t.2)
    let effects := triples.map (fun t => t.2.1)
    let pvalues := triples.map (fun t => t.2.2) ++ fallbackPv.map (fun t => t.1)
    let quality :=
      if hasSub (lowerL "SIFT".data) (lowerL big.data)
          || hasSub (lowerL "PolyPhen".data) (lowerL big.data) then
        "1:SIFT score 2:PolyPhen score"
      else ""
    let comments :=
      if hasSub "case control".data (lowerL study_design.data) then
        "Case-control study; sample size estimation and replication required."
      else "Parsed heuristically from abstract/meta."
    .ok
      { authors := pyOrStr (some meta.first_author) (pyOrStr (some meta.authors_list) "")
        title := meta.title
        year := meta.year
        journal := meta.journal
        doi_pmid :=
          if meta.pmid ≠ "" || meta.doi ≠ "" then
            String.mk (stripL ("PMID: " ++ meta.pmid ++ "\nDOI: " ++ meta.doi).data)
          else ""
        study_design := study_design
        region := find_region big
        sample_size :=
          match find_sample_size big with
          | some n => .i n
          | none => .s ""
        mean_age := (find_mean_age big).getD ""
        gene := gene_cell_of big
        snp_variant := String.intercalate "\n" rsids
        genotyping_method := find_genotyping_method big
        allele_freq := allele_freq_cell_of big
        reported_assoc := String.intercalate "\n" reported
        effect_direction := String.intercalate "\n" effects
        p_value := String.intercalate "\n" pvalues
        quality := quality
        comments := comments }

/-! ## Auxiliary definitions for the claims -/

/-- Two sequential runs of the full extraction on the same parsed page, as
the idempotence property speaks of. -/
def parse_article_twice (s : Soup) : Except String Row × Except String Row :=
  (parse_article s, parse_article s)

/-- A page whose `<title>` element has no single string child (for example
`<title></title>`) and that carries no structured title hint. -/
def emptyTitleSoup : Soup :=
  { metas := [], titleStr := some none, authorContainer := none,
    anchorTexts := [], abstractNode := none, paragraphs := [], pageText := "" }

/-- The same page with the `<title>` element removed entirely. -/
def noTitleSoup : Soup :=
  { metas := [], titleStr := none, authorContainer := none,
    anchorTexts := [], abstractNode := none, paragraphs := [], pageText := "" }

/-- A small concrete page used to witness determinism. -/
def demoSoup : Soup :=
  { metas := [⟨some "citation_title", none, some "FTO variants"⟩],
    titleStr := none, authorContainer := none, anchorTexts := [],
    abstractNode := none, paragraphs := [],
    pageText := "Case-control study, n=100, FTO rs9939609 with OR = 1.5, P = 0.01." }

/-- Written from the words of claim C10: the first (leftmost-starting)
number of the form `[01]?\.\d{1,4}` in the corpus that stands within 8
non-digit characters after an occurrence of the rsID. The source instead
prefers, within one occurrence, the candidate after the longest such gap. -/
def claimFirstNumber (text : List Char) (rsi : List Char) : Option String :=
  (List.range (text.length + 1)).firstM (fun i =>
    match freqNumMatch (text.drop i) with
    | none => none
    | some g =>
      let ok := (List.range 9).any (fun gap =>
        decide (gap ≤ i) &&
        ((text.drop (i - gap)).take gap).all (fun c => !(isDigitC c)) &&
        (decide (rsi.length ≤ i - gap) &&
          startsWithL rsi (text.drop (i - gap - rsi.length))))
      if ok then some (String.mk g) else none)

/-- The `gene_first_pos` dictionary produced by step 2 for a corpus: each
gene name paired with the rsID-list index at which it was first stored. -/
def geneFirstPos (text : String) : List (String × Nat) :=
  (geneLoop text.data (rsidsOf text) 0 []).2

/-! ## Supporting lemmas -/

/-- `dedupFirst` yields a duplicate-free list avoiding the seen set. -/
theorem dedupFirst_nodup : ∀ (l seen : List String),
    (dedupFirst l seen).Nodup ∧ ∀ x ∈ dedupFirst l seen, x ∉ seen := by
  intro l
  induction l with
  | nil => intro seen; exact ⟨List.nodup_nil, by simp [dedupFirst]⟩
  | cons x xs ih =>
    intro seen
    by_cases h : x ∈ seen
    · simpa only [dedupFirst, if_pos h] using ih seen
    · simp only [dedupFirst, if_neg h]
      obtain ⟨hn, hmem⟩ := ih (x :: seen)
      refine ⟨List.nodup_cons.mpr ⟨?_, hn⟩, ?_⟩
      · intro hx
        exact hmem x hx (List.mem_cons_self x seen)
      · intro y hy
        rcases List.mem_cons.mp hy with rfl | hy'
        · exact h
        · intro hyseen
          exact hmem y hy' (List.mem_cons_of_mem x hyseen)

/-- `List.any` only depends on the predicate's values on the list. -/
theorem anyCongr {α : Type} (l : List α) (f g : α → Bool)
    (h : ∀ a ∈ l, f a = g a) : l.any f = l.any g := by
  induction l with
  | nil => rfl
  | cons a as ih =>
    simp only [List.any_cons]
    rw [h a (List.mem_cons_self a as), ih (fun b hb => h b (List.mem_cons_of_mem a hb))]

/-- `List.find?` only depends on the predicate's values on the list. -/
theorem findCongr {α : Type} (l : List α) (p q : α → Bool)
    (h : ∀ a ∈ l, p a = q a) : l.find? p = l.find? q := by
  induction l with
  | nil => rfl
  | cons a as ih =>
    have ha := h a (List.mem_cons_self a as)
    cases hq : q a with
    | true => rw [List.find?_cons_of_pos _ (ha.trans hq), List.find?_cons_of_pos _ hq]
    | false =>
      rw [List.find?_cons_of_neg _ (by simp [ha, hq]), List.find?_cons_of_neg _ (by simp [hq])]
      exact ih (fun b hb => h b (List.mem_cons_of_mem a hb))

/-- The first-label scan only depends on which triggers occur. -/
theorem firstDesignLabelCongr :
    ∀ (L : List (String × List String)) (t1 t2 : List Char),
    (∀ lk ∈ L, ∀ k ∈ lk.2, hasSub k.data t1 = hasSub k.data t2) →
    firstDesignLabel t1 L = firstDesignLabel t2 L := by
  intro L
  induction L with
  | nil => intro t1 t2 _; rfl
  | cons lk rest ih =>
    intro t1 t2 h
    obtain ⟨label, keys⟩ := lk
    simp only [firstDesignLabel]
    rw [anyCongr keys _ _ (fun k hk =>
      h (label, keys) (List.mem_cons_self _ _) k hk)]
    split
    · rfl
    · exact ih t1 t2 (fun lk hlk k hk => h lk (List.mem_cons_of_mem _ hlk) k hk)

/-- Study-design selection depends only on the trigger-occurrence
predicate. -/
theorem studyDesignOccurrence (t1 t2 : String)
    (h : ∀ lk ∈ STUDY_DESIGN_KEYWORDS, ∀ k ∈ lk.2,
        hasSub k.data (lowerL t1.data) = hasSub k.data (lowerL t2.data)) :
    find_study_design t1 = find_study_design t2 := by
  by_cases h1 : t1 = "" <;> by_cases h2 : t2 = ""
  · rw [h1, h2]
  · subst h1
    show find_study_design "" = find_study_design t2
    rw [show find_study_design "" = "" from rfl]
    simp only [find_study_design]
    rw [if_neg h2]
    rw [firstDesignLabelCongr STUDY_DESIGN_KEYWORDS _ _
      (fun lk hlk k hk => (h lk hlk k hk).symm)]
    decide
  · subst h2
    rw [show find_study_design "" = "" from rfl]
    simp only [find_study_design]
    rw [if_neg h1]
    rw [firstDesignLabelCongr STUDY_DESIGN_KEYWORDS _ _ (fun lk hlk k hk => h lk hlk k hk)]
    decide
  · simp only [find_study_design]
    rw [if_neg h1, if_neg h2]
    exact firstDesignLabelCongr STUDY_DESIGN_KEYWORDS _ _ h

/-- Region selection depends only on the whole-word occurrence predicate. -/
theorem regionOccurrence (t1 t2 : String)
    (h : ∀ r ∈ REGION_KEYWORDS, wordOccurs r t1 = wordOccurs r t2) :
    find_region t1 = find_region t2 := by
  by_cases h1 : t1 = "" <;> by_cases h2 : t2 = ""
  · rw [h1, h2]
  · subst h1
    rw [show find_region "" = "" from rfl]
    simp only [find_region]
    rw [if_neg h2]
    rw [findCongr REGION_KEYWORDS _ _ (fun r hr => (h r hr).symm)]
    decide
  · subst h2
    rw [show find_region "" = "" from rfl]
    simp only [find_region]
    rw [if_neg h1]
    rw [findCongr REGION_KEYWORDS _ _ (fun r hr => h r hr)]
    decide
  · simp only [find_region]
    rw [if_neg h1, if_neg h2]
    rw [findCongr REGION_KEYWORDS _ _ (fun r hr => h r hr)]

/-- Inserting an element whose key exceeds every key in the list appends
it at the end. -/
theorem insByPos_of_lt (x : String × Nat) :
    ∀ l : List (String × Nat), (∀ a ∈ l, a.2 < x.2) → insByPos x l = l ++ [x] := by
  intro l
  induction l with
  | nil => intro _; rfl
  | cons y ys ih =>
    intro h
    have hy : y.2 ≤ x.2 := Nat.le_of_lt (h y (List.mem_cons_self y ys))
    simp only [insByPos, if_pos hy]
    rw [ih (fun a ha => h a (List.mem_cons_of_mem y ha))]
    rfl

/-- Folding stable insertion over a strictly sorted tail appends it. -/
theorem sortByPos_eq_append :
    ∀ (l acc : List (String × Nat)),
    (∀ a ∈ acc, ∀ b ∈ l, a.2 < b.2) →
    List.Pairwise (fun a b => a.2 < b.2) l →
    List.foldl (fun acc x => insByPos x acc) acc l = acc ++ l := by
  intro l
  induction l with
  | nil => intro acc _ _; simp
  | cons x xs ih =>
    intro acc hcross hp
    have hpx := List.pairwise_cons.mp hp
    have hstep : ∀ a ∈ acc ++ [x], ∀ b ∈ xs, a.2 < b.2 := by
      intro a ha b hb
      rcases List.mem_append.mp ha with h1 | h2
      · exact hcross a h1 b (List.mem_cons_of_mem x hb)
      · have hax : a = x := by simpa using h2
        subst hax
        exact hpx.1 b hb
    simp only [List.foldl_cons]
    rw [insByPos_of_lt x acc (fun a ha => hcross a ha x (List.mem_cons_self x xs))]
    rw [ih (acc ++ [x]) hstep hpx.2]
    simp

/-- A strictly position-sorted association list is a fixed point of the
stable sort. -/
theorem sortByPos_of_sorted (l : List (String × Nat))
    (h : List.Pairwise (fun a b => a.2 < b.2) l) : sortByPos l = l := by
  have := sortByPos_eq_append l [] (by intro a ha; cases ha) h
  simpa [sortByPos] using this

/-- `setdefault` preserves the position bound and strict sortedness when
the inserted index dominates the existing ones. -/
theorem setdefaultL_inv (pos : List (String × Nat)) (g : String) (idx : Nat)
    (hb : ∀ p ∈ pos, p.2 < idx)
    (hp : List.Pairwise (fun a b => a.2 < b.2) pos) :
    (∀ p ∈ setdefaultL pos g idx, p.2 < idx + 1) ∧
      List.Pairwise (fun a b => a.2 < b.2) (setdefaultL pos g idx) := by
  unfold setdefaultL
  split
  · exact ⟨fun p hpmem => Nat.lt_succ_of_lt (hb p hpmem), hp⟩
  · constructor
    · intro p hpmem
      rcases List.mem_append.mp hpmem with h1 | h2
      · exact Nat.lt_succ_of_lt (hb p h1)
      · have : p = (g, idx) := by simpa using h2
        subst this
        exact Nat.lt_succ_self idx
    · rw [List.pairwise_append]
      refine ⟨hp, List.pairwise_singleton _ _, ?_⟩
      intro a ha b hbmem
      have : b = (g, idx) := by simpa using hbmem
      subst this
      exact hb a ha

/-- The `gene_first_pos` accumulator stays strictly sorted by stored index,
and all stored indices stay below the running enumeration index. -/
theorem geneLoop_pos_sorted (text : List Char) :
    ∀ (l : List String) (idx : Nat) (pos : List (String × Nat)),
    (∀ p ∈ pos, p.2 < idx) →
    List.Pairwise (fun a b => a.2 < b.2) pos →
    List.Pairwise (fun a b => a.2 < b.2) (geneLoop text l idx pos).2 := by
  intro l
  induction l with
  | nil => intro idx pos _ hp; exact hp
  | cons rsi rest ih =>
    intro idx pos hb hp
    simp only [geneLoop]
    cases hre : (resolveGeneInfo text rsi).gene with
    | none => exact ih (idx + 1) pos (fun p hpm => Nat.lt_succ_of_lt (hb p hpm)) hp
    | some g =>
      obtain ⟨hb', hp'⟩ := setdefaultL_inv pos g idx hb hp
      exact ih (idx + 1) (setdefaultL pos g idx) hb' hp'

/-- Characterization of the entries of `gene_first_pos`: every stored pair
`(g, i)` that was not already in the accumulator marks the first list
position whose variant resolves to gene `g`. -/
theorem geneLoop_pos_mem (text : List Char) :
    ∀ (l : List String) (idx : Nat) (pos : List (String × Nat)) (g : String) (i : Nat),
    (g, i) ∈ (geneLoop text l idx pos).2 →
    (g, i) ∈ pos ∨
      ∃ k rsi, l.get? k = some rsi ∧ i = idx + k ∧
        (resolveGeneInfo text rsi).gene = some g ∧
        (∀ e ∈ pos, e.1 ≠ g) ∧
        ∀ j, j < k → ∀ rsj, l.get? j = some rsj →
          (resolveGeneInfo text rsj).gene ≠ some g := by
  intro l
  induction l with
  | nil => intro idx pos g i h; exact Or.inl h
  | cons rsi rest ih =>
    intro idx pos g i h
    simp only [geneLoop] at h
    cases hre : (resolveGeneInfo text rsi).gene with
    | none =>
      rw [hre] at h
      rcases ih (idx + 1) pos g i h with hmem | ⟨k, rsj, hget, hi, hg, hkeys, hmin⟩
      · exact Or.inl hmem
      · refine Or.inr ⟨k + 1, rsj, by simpa using hget, by omega, hg, hkeys, ?_⟩
        intro j hj rsk hgetk
        match j, hgetk with
        | 0, hgetk =>
          have hsk : rsi = rsk := by simpa using hgetk
          subst hsk
          rw [hre]
          exact fun hcon => Option.noConfusion hcon
        | j' + 1, hgetk =>
          exact hmin j' (by omega) rsk (by simpa using hgetk)
    | some g0 =>
      rw [hre] at h
      rcases ih (idx + 1) (setdefaultL pos g0 idx) g i h with hmem | hnew
      · unfold setdefaultL at hmem
        by_cases hany : pos.any (fun e => e.1 = g0)
        · rw [if_pos hany] at hmem
          exact Or.inl hmem
        · rw [if_neg hany] at hmem
          rcases List.mem_append.mp hmem with h1 | h2
          · exact Or.inl h1
          · have hpair : (g, i) = (g0, idx) := by simpa using h2
            have hgg : g = g0 := congrArg Prod.fst hpair
            have hii : i = idx := congrArg Prod.snd hpair
            subst hgg
            refine Or.inr ⟨0, rsi, rfl, by omega, hre, ?_, by intro j hj; omega⟩
            intro e he hcon
            exact hany (List.any_eq_true.mpr ⟨e, he, by simp [hcon]⟩)
      · obtain ⟨k, rsj, hget, hi, hg, hkeys, hmin⟩ := hnew
        have hkeys0 : ∀ e ∈ pos, e.1 ≠ g := by
          intro e he
          apply hkeys
          unfold setdefaultL
          split
          · exact he
          · exact List.mem_append.mpr (Or.inl he)
        have hg0ne : g0 ≠ g := by
          by_cases hany : pos.any (fun e => e.1 = g0)
          · obtain ⟨e, he, heq⟩ := List.any_eq_true.mp hany
            have : e.1 = g0 := by simpa using heq
            exact this ▸ hkeys0 e he
          · have : (g0, idx) ∈ setdefaultL pos g0 idx := by
              unfold setdefaultL
              rw [if_neg hany]
              exact List.mem_append.mpr (Or.inr (List.mem_cons_self _ _))
            exact hkeys (g0, idx) this
        refine Or.inr ⟨k + 1, rsj, by simpa using hget, by omega, hg, hkeys0, ?_⟩
        intro j hj rsk hgetk
        match j, hgetk with
        | 0, hgetk =>
          have hsk : rsi = rsk := by simpa using hgetk
          subst hsk
          rw [hre]
          intro hcon
          exact hg0ne (Option.some.inj hcon)
        | j' + 1, hgetk =>
          exact hmin j' (by omega) rsk (by simpa using hgetk)

/-- The sorted `gene_first_pos` list is strictly ascending in its stored
indices. -/
theorem geneFirstPos_sorted (text : String) :
    List.Pairwise (fun a b => a.2 < b.2) (sortByPos (geneFirstPos text)) := by
  have h := geneLoop_pos_sorted text.data (rsidsOf text) 0 []
    (by intro p hp; cases hp) List.Pairwise.nil
  unfold geneFirstPos
  rw [sortByPos_of_sorted _ h]
  exact h

/-! ## Claim theorems -/

/-- C1: for the corpus `"PPARG (rs1801282 (Pro12Ala)) and HNF4A (rs745975)"`
the Gene Group renderer is claimed to produce
`1:PPARG(rs1801282 (Pro12Ala))` then `2:HNF4A(rs745975)`. The code instead
produces `1:PPARG(rs1801282(Pro12Ala))` (annotation space stripped) and
`2:HNF4A(rs745975 ))` (a stray closing parenthesis captured as
annotation), contradicting the module docstring that displays the claimed
rendering. -/
theorem c1_gene_group_render :
    gene_cell_of "PPARG (rs1801282 (Pro12Ala)) and HNF4A (rs745975)"
        = "1:PPARG(rs1801282(Pro12Ala))\n2:HNF4A(rs745975 ))" ∧
    gene_cell_of "PPARG (rs1801282 (Pro12Ala)) and HNF4A (rs745975)"
        ≠ "1:PPARG(rs1801282 (Pro12Ala))\n2:HNF4A(rs745975)" := by
  constructor
  · decide
  · decide

/-- C2 counterexample: rsIDs are *not* returned in canonical lowercase form
with case-insensitive deduplication; a corpus containing `RS1234` and
`rs1234` yields two distinct entries, the first of which keeps its original
upper case. -/
theorem c2_rsids_counterexample :
    rsidsOf "The RS1234 variant appears again as rs1234." = ["RS1234", "rs1234"] ∧
    (["RS1234", "rs1234"] : List String) ≠ ["rs1234"] := by
  constructor
  · decide
  · decide

/-- C2 amended: the collection step returns the rsID tokens exactly as they
appear in the corpus (case preserved, matched case-insensitively), in order
of first appearance, deduplicated by exact string equality — hence without
duplicates. -/
theorem c2_rsids_amended :
    (∀ text : String, (rsidsOf text).Nodup) ∧
    rsidsOf "We saw RS1234 twice (rs1234 and Rs1234), then rs777888."
        = ["RS1234", "rs1234", "Rs1234", "rs777888"] ∧
    rsidsOf "no variants here" = [] := by
  refine ⟨fun text => (dedupFirst_nodup _ []).1, ?_, ?_⟩
  · decide
  · decide

/-- C5: the sample-size cascade tries its patterns in the fixed order,
short-circuits on the first success, doubles the `T2DM cases and controls
each` count, sums the cases/controls pair, falls back to the largest
free-standing 2-6 digit number at 30 or above, and otherwise yields the
empty result; commas are stripped first. -/
theorem c5_sample_size_cascade :
    (∀ (text : String) (v : Nat), text ≠ "" →
        reSearch ssPat1At (removeCommas text.data) = some v →
        find_sample_size text = some v) ∧
    (∀ (text : String) (v : Nat), text ≠ "" →
        reSearch ssPat1At (removeCommas text.data) = none →
        reSearch ssPat2At (removeCommas text.data) = some v →
        find_sample_size text = some v) ∧
    (∀ (text : String) (v : Nat), text ≠ "" →
        reSearch ssPat1At (removeCommas text.data) = none →
        reSearch ssPat2At (removeCommas text.data) = none →
        reSearch ssPat3At (removeCommas text.data) = some v →
        find_sample_size text = some (v * 2)) ∧
    (∀ (text : String) (v : Nat), text ≠ "" →
        reSearch ssPat1At (removeCommas text.data) = none →
        reSearch ssPat2At (removeCommas text.data) = none →
        reSearch ssPat3At (removeCommas text.data) = none →
        reSearch ssPat4At (removeCommas text.data) = some v →
        find_sample_size text = some v) ∧
    find_sample_size "n=450 participants" = some 450 ∧
    find_sample_size "500 cases and 300 controls" = some 800 ∧
    find_sample_size "25 patients" = none ∧
    find_sample_size "sample size of 120 but n = 45" = some 45 ∧
    find_sample_size "40 T2DM cases and controls each" = some 80 ∧
    find_sample_size "in total 500 cases and 300 controls among 9000 screened" = some 800 ∧
    find_sample_size "n=1,234 enrolled" = some 1234 ∧
    find_sample_size "year 2021 study" = some 2021 := by
  refine ⟨?_, ?_, ?_, ?_, ?_, ?_, ?_, ?_, ?_, ?_, ?_, ?_⟩
  · intro text v ht h1
    simp [find_sample_size, ht, h1]
  · intro text v ht h1 h2
    simp [find_sample_size, ht, h1, h2]
  · intro text v ht h1 h2 h3
    simp [find_sample_size, ht, h1, h2, h3]
  · intro text v ht h1 h2 h3 h4
    simp [find_sample_size, ht, h1, h2, h3, h4]
  all_goals decide

/-- C5 witness: the first cascade stage concretely fires on
`"n=450 participants"`. -/
theorem c5_sample_size_cascade_witness :
    find_sample_size "n=450 participants" = some 450 :=
  c5_sample_size_cascade.1 "n=450 participants" 450 (by decide) (by decide)

/-- C8: in the allele-frequency cell the gene part of a line for an rsID
that has a frequency but no associated gene is rendered as the string
`None` (the f-string prints the `None` stored in the gene map), not as an
empty string. -/
theorem c8_allele_gene_rendered_none :
    allele_freq_cell_of "rs123456 0.25" = "None (rs123456) → 0.25" ∧
    allele_freq_cell_of "rs123456 0.25" ≠ " (rs123456) → 0.25" := by
  constructor
  · decide
  · decide

/-- C9: the extraction pipeline is a pure function of the parsed page:
two sequential runs on the same markup yield identical rows, and equal
inputs yield equal rows. -/
theorem c9_extraction_deterministic :
    (∀ s : Soup, (parse_article_twice s).1 = (parse_article_twice s).2) ∧
    (∀ s1 s2 : Soup, s1 = s2 → parse_article s1 = parse_article s2) :=
  ⟨fun _ => rfl, fun _ _ h => h ▸ rfl⟩

/-- C9 witness: determinism at a concrete page. -/
theorem c9_extraction_deterministic_witness :
    parse_article demoSoup = parse_article demoSoup ∧
    (parse_article_twice demoSoup).1 = (parse_article_twice demoSoup).2 :=
  ⟨c9_extraction_deterministic.2 demoSoup demoSoup rfl,
   c9_extraction_deterministic.1 demoSoup⟩

/-- C10 counterexample: the detector does not assign the first (leftmost)
qualifying number after an occurrence of the rsID: the greedy non-digit gap
prefers a later-starting candidate. On `"rs123456.0.5"` the leftmost
qualifying number is `.0`, yet the code assigns `0.5`. -/
theorem c10_freq_counterexample :
    extract_allele_freqs "rs123456.0.5" ["rs123456"] = [("rs123456", some "0.5")] ∧
    claimFirstNumber "rs123456.0.5".data "rs123456".data = some ".0" ∧
    (some "0.5" : Option String) ≠ some ".0" := by
  refine ⟨?_, ?_, ?_⟩
  · decide
  · decide
  · decide

/-- C10 amended: per rsID the detector searches, at each occurrence of the
rsID from left to right, for a decimal `[01]?\.\d{1,4}` after a gap of at
most 8 non-digit characters, preferring the longest gap (hence the
candidate starting at the first digit); failing that it converts a
percentage `\d{1,3}\.\d{1,2}%` found the same way by dividing by 100 and
formatting to 3 decimal places; otherwise the rsID gets no frequency and
its line is omitted from the allele-frequency cell. -/
theorem c10_freq_amended :
    extract_allele_freqs "rs111222 maf 0.25 rest" ["rs111222"] = [("rs111222", some "0.25")] ∧
    extract_allele_freqs "rs111222 at 12.5 % here" ["rs111222"] = [("rs111222", some "0.125")] ∧
    extract_allele_freqs "rs111222abcdefgh0.5" ["rs111222"] = [("rs111222", some "0.5")] ∧
    extract_allele_freqs "rs111222abcdefghi0.5" ["rs111222"] = [("rs111222", none)] ∧
    extract_allele_freqs "rs111222 0.4 also 12.5 %" ["rs111222"] = [("rs111222", some "0.4")] ∧
    extract_allele_freqs "rs123456.0.5" ["rs123456"] = [("rs123456", some "0.5")] ∧
    extract_allele_freqs "rs111222 nothing numeric" ["rs111222"] = [("rs111222", none)] ∧
    allele_freq_cell_of "rs111222 nothing numeric" = "" := by
  refine ⟨?_, ?_, ?_, ?_, ?_, ?_, ?_, ?_⟩
  all_goals decide

/-- C7: study-design and region selection return the label of the first
entry in the fixed declaration-order list whose trigger occurs; the result
depends only on which triggers occur (lowercased substring for designs,
whole-word case-insensitive for regions), not on their corpus positions,
so list order beats corpus position. -/
theorem c7_selection_list_order :
    (∀ t1 t2 : String,
        (∀ lk ∈ STUDY_DESIGN_KEYWORDS, ∀ k ∈ lk.2,
            hasSub k.data (lowerL t1.data) = hasSub k.data (lowerL t2.data)) →
        find_study_design t1 = find_study_design t2) ∧
    (∀ t1 t2 : String,
        (∀ r ∈ REGION_KEYWORDS, wordOccurs r t1 = wordOccurs r t2) →
        find_region t1 = find_region t2) ∧
    find_study_design "the cohort arm sat within a case-control framework" = "Case control" ∧
    find_region "India and Pakistan" = "Pakistan" ∧
    find_region "seen in china and then in sindh communities" = "Sindh" := by
  refine ⟨studyDesignOccurrence, regionOccurrence, ?_, ?_, ?_⟩
  · decide
  · decide
  · decide

/-- C7 witness: occurrence-equivalent corpora with different trigger
positions select the same labels. -/
theorem c7_selection_list_order_witness :
    find_study_design "case-control with a cohort arm"
        = find_study_design "a cohort arm inside a case-control design" ∧
    find_region "Pakistan then India" = find_region "India then Pakistan" :=
  ⟨c7_selection_list_order.1 _ _ (by decide),
   c7_selection_list_order.2.1 _ _ (by decide)⟩

/-- C4: for every retained entry whose odds-ratio string parses, the
direction marker follows the odds ratio (`> 1` increased, `< 1` decreased,
`= 1` no change) whenever the p-value (with `>` characters stripped) is
absent, unparsable, or does not exceed `0.05`; and whenever that p-value
numerically exceeds `0.05` the result is the not-significant marker
regardless of direction. Concretely OR 2.1 with P 0.03 marks increased
risk and OR 0.5 with P 0.2 marks not significant. -/
theorem c4_effect_direction :
    (∀ (orS : String) (pS : Option String) (orv : PyFloat),
        pyFloat? orS = some orv →
        ((∀ pv, pParsed pS = some pv → pfLE pv pf005 = true) →
            infer_effect_direction orS pS =
              (if pfLT pf1 orv then "Risk ↑"
               else if pfLT orv pf1 then "Risk ↓" else "No change")) ∧
        (∀ pv, pParsed pS = some pv → pfLE pv pf005 = false →
            infer_effect_direction orS pS = "No significant effect (ns)")) ∧
    infer_effect_direction "2.1" (some "0.03") = "Risk ↑" ∧
    infer_effect_direction "0.5" (some "0.2") = "No significant effect (ns)" := by
  refine ⟨?_, by decide, by decide⟩
  intro orS pS orv h
  constructor
  · intro hno
    simp only [infer_effect_direction, h]
    cases hP : pParsed pS with
    | none => simp [hP]
    | some pv => simp [hP, hno pv hP]
  · intro pv hP hF
    simp only [infer_effect_direction, h]
    simp [hP, hF]

/-- C4 witness: the general classification applied at OR 0.5 / P 0.2 and
at OR 2.1 / P 0.03. -/
theorem c4_effect_direction_witness :
    infer_effect_direction "0.5" (some "0.2") = "No significant effect (ns)" ∧
    infer_effect_direction "2.1" (some "0.03") = "Risk ↑" := by
  constructor
  · exact (c4_effect_direction.1 "0.5" (some "0.2")
        (PyFloat.fin 4503599627370496 53) (by decide)).2
      (PyFloat.fin 7205759403792794 55) (by decide) (by decide)
  · have h := (c4_effect_direction.1 "2.1" (some "0.03")
        (PyFloat.fin 4728779608739021 51) (by decide)).1 (fun pv hpv => by
      have hx : pParsed (some "0.03") = some (PyFloat.fin 8646911284551352 58) := by decide
      rw [hx] at hpv
      cases hpv
      decide)
    exact h.trans (by decide)

/-- C3: the claim that the metadata extractor never raises fails: on a page
whose `<title>` element has no string child (for example `<title></title>`)
and that carries no structured title hint, `soup.title` is truthy while
`soup.title.string` is `None`, so `.strip()` raises `AttributeError` and
the whole extraction aborts. Removing the `<title>` element makes the same
page extract cleanly, with every field an empty string. -/
theorem c3_metadata_extractor_totality :
    extract_basic_metadata emptyTitleSoup =
      .error "AttributeError: NoneType object has no attribute strip" ∧
    parse_article emptyTitleSoup =
      .error "AttributeError: NoneType object has no attribute strip" ∧
    extract_basic_metadata noTitleSoup =
      .ok { title := "", first_author := "", authors_list := "", journal := "",
            doi := "", pmid := "", year := "" } := by
  refine ⟨?_, ?_, ?_⟩
  · rfl
  · rfl
  · rfl

/-- C6: Gene Groups are ordered by the index, within the rsID list, at
which each gene's first variant was found: the sorted `gene_first_pos`
association is strictly ascending in stored indices, each stored index is
the first rsID-list position whose variant resolves to that gene, and the
rendered group order is exactly the first component of that sorted
association. When one gene is associated with two rsIDs (GLIS3 with
rs6415788 and rs806052), both variants land in a single group in rsID
order. -/
theorem c6_gene_group_order :
    (∀ text : String,
        List.Pairwise (fun a b => a.2 < b.2) (sortByPos (geneFirstPos text))) ∧
    (∀ (text : String) (g : String) (i : Nat),
        (g, i) ∈ sortByPos (geneFirstPos text) →
        ∃ rsi, (rsidsOf text).get? i = some rsi ∧
          (resolveGeneInfo text.data rsi).gene = some g ∧
          ∀ j, j < i → ∀ rsj, (rsidsOf text).get? j = some rsj →
            (resolveGeneInfo text.data rsj).gene ≠ some g) ∧
    (∀ text : String,
        (extract_rsids_and_genes text).2.2 =
          (sortByPos (geneFirstPos text)).map (fun e => e.1)) ∧
    extract_rsids_and_genes "GLIS3 rs6415788 and GLIS3 rs806052" =
      (["rs6415788", "rs806052"],
       [("rs6415788", { gene := some "GLIS3", annot := "" }),
        ("rs806052", { gene := some "GLIS3", annot := "" })],
       ["GLIS3"]) ∧
    gene_cell_of "GLIS3 rs6415788 and GLIS3 rs806052" = "1:GLIS3(rs6415788, rs806052)" := by
  refine ⟨?_, ?_, ?_, by decide, by decide⟩
  · exact geneFirstPos_sorted
  · intro text g i hmem
    have hsorted := geneLoop_pos_sorted text.data (rsidsOf text) 0 []
      (by intro p hp; cases hp) List.Pairwise.nil
    rw [geneFirstPos] at hmem
    rw [sortByPos_of_sorted _ hsorted] at hmem
    rcases geneLoop_pos_mem text.data (rsidsOf text) 0 [] g i hmem with hfalse | hchar
    · cases hfalse
    · obtain ⟨k, rsi, hget, hi, hg, _, hmin⟩ := hchar
      have hik : i = k := by omega
      subst hik
      exact ⟨rsi, hget, hg, hmin⟩
  · intro text
    by_cases h : text = ""
    · subst h
      decide
    · simp [extract_rsids_and_genes, h, geneFirstPos]

/-- C6 witness: the characterization applied to the GLIS3 corpus at the
single stored group entry. -/
theorem c6_gene_group_order_witness :
    ∃ rsi, (rsidsOf "GLIS3 rs6415788 and GLIS3 rs806052").get? 0 = some rsi ∧
      (resolveGeneInfo "GLIS3 rs6415788 and GLIS3 rs806052".data rsi).gene = some "GLIS3" ∧
      ∀ j, j < 0 → ∀ rsj,
        (rsidsOf "GLIS3 rs6415788 and GLIS3 rs806052").get? j = some rsj →
        (resolveGeneInfo "GLIS3 rs6415788 and GLIS3 rs806052".data rsj).gene ≠ some "GLIS3" :=
  c6_gene_group_order.2.1 "GLIS3 rs6415788 and GLIS3 rs806052" "GLIS3" 0 (by decide)

end PubmedScraper
